import Mathlib

/-!
Verification development for the `semantic-image-search` backend.

The repository's retrieval core consists of a query translator with an
in-memory cache (`backend/query_translator.py`), an ingestion service
(`backend/ingestion.py`) and a search service.  Python strings are
modelled as `List Char` (a Python `str` is a sequence of code points);
the external collaborators (Text Completion Provider, Embedding
Provider, Vector Store) are modelled as oracles passed explicitly.
-/

set_option maxRecDepth 4000

/-- A Python string, modelled as its list of characters. -/
abbrev PyStr := List Char

/-- The whitespace characters removed by Python's `str.strip()`
(ASCII fragment: space, tab, newline, carriage return, vertical tab,
form feed). -/
def isSpace (c : Char) : Bool :=
  c = ' ' || c = '\t' || c = '\n' || c = '\r' || c = '\x0b' || c = '\x0c'

/-- Remove leading whitespace (Python `str.lstrip()`). -/
def lstrip (s : PyStr) : PyStr := s.dropWhile isSpace

/-- Remove trailing whitespace (Python `str.rstrip()`). -/
def rstrip (s : PyStr) : PyStr := (s.reverse.dropWhile isSpace).reverse

/-- Python `str.strip()`: remove leading and trailing whitespace. -/
def strip (s : PyStr) : PyStr := rstrip (lstrip s)

/-- Python `str.lower()` on a single character (ASCII fragment). -/
def pyLower (c : Char) : Char :=
  match c with
  | 'A' => 'a' | 'B' => 'b' | 'C' => 'c' | 'D' => 'd' | 'E' => 'e'
  | 'F' => 'f' | 'G' => 'g' | 'H' => 'h' | 'I' => 'i' | 'J' => 'j'
  | 'K' => 'k' | 'L' => 'l' | 'M' => 'm' | 'N' => 'n' | 'O' => 'o'
  | 'P' => 'p' | 'Q' => 'q' | 'R' => 'r' | 'S' => 's' | 'T' => 't'
  | 'U' => 'u' | 'V' => 'v' | 'W' => 'w' | 'X' => 'x' | 'Y' => 'y'
  | 'Z' => 'z'
  | c => c

/-- Python `str.lower()`. -/
def lower (s : PyStr) : PyStr := s.map pyLower

/-- Error raised by an external provider call (the underlying cause that
the service wraps).  `indexError` models Python's `IndexError` from
subscripting an empty result list. -/
inductive PError where
  | fail (code : Nat)
  | indexError
deriving DecidableEq

/-- Errors raised by `QueryTranslator.translate`: `invalidQuery` is the
`ValueError("Query must be a non-empty string")` of step 1, and
`translationFailure` is the `SemanticImageSearchException("LLM translation
failed", e)` wrapping the provider error `e`. -/
inductive TransError where
  | invalidQuery
  | translationFailure (cause : PError)
deriving DecidableEq

/-- The translator's in-memory cache `self._query_cache`, a dictionary
from normalized query to cached caption (association list; the most
recent binding for a key shadows older ones, like dict assignment). -/
abbrev Cache := List (PyStr × PyStr)

/-- Result of one `translate` call: its output (or error), the cache
state after the call, and the number of Text Completion Provider
invocations the call made. -/
structure TResult where
  output : Except TransError PyStr
  cache : Cache
  llmCalls : Nat

instance {α β : Type} [DecidableEq α] [DecidableEq β] :
    DecidableEq (Except α β) := fun a b =>
  match a, b with
  | Except.ok x, Except.ok y =>
    if h : x = y then isTrue (by rw [h]) else isFalse (by simp [h])
  | Except.error x, Except.error y =>
    if h : x = y then isTrue (by rw [h]) else isFalse (by simp [h])
  | Except.ok _, Except.error _ => isFalse (by simp)
  | Except.error _, Except.ok _ => isFalse (by simp)

instance : DecidableEq TResult := fun a b =>
  if h : a.output = b.output ∧ a.cache = b.cache ∧ a.llmCalls = b.llmCalls then
    isTrue (by obtain ⟨h1, h2, h3⟩ := h; cases a; cases b; simp_all)
  else
    isFalse (by intro he; subst he; simp at h)

/-- Constant `self.MAX_QUERY_LENGTH = 200` from `QueryTranslator.__init__`. -/
def MAX_QUERY_LENGTH : Nat := 200

/-- The `CHAT_PATTERNS` list from `QueryTranslator.translate`. -/
def CHAT_PATTERNS : List PyStr :=
  ["show me".data, "please".data, "give me".data, "can you".data,
   "i want".data, "find me".data, "could you".data]

/-- Python's substring test `pat in s`: some tail of `s` starts with
`pat`. -/
def containsPattern (pat s : PyStr) : Bool :=
  s.tails.any (fun t => pat.isPrefixOf t)

/-- Detection `any(pattern in normalized_query for pattern in CHAT_PATTERNS)`. -/
def is_conversational (normalized_query : PyStr) : Bool :=
  CHAT_PATTERNS.any (fun pat => containsPattern pat normalized_query)

/-- Prompt `self.prompt_template.format(input_query=...)`: the fixed instruction
prompt of `QueryTranslator.__init__` with the normalized query
substituted for the `input_query` variable. -/
def prompt_template (input_query : PyStr) : PyStr :=
  ("You are an expert at rewriting queries for the CLIP image–text model.\n\nGoal:\nRewrite the user query into a short, concrete, descriptive image caption.\nThe rewritten query must maximize CLIP retrieval accuracy.\n\nGuidelines:\n- Keep the original meaning.\n- Use 3–12 word caption style.\n- Remove chat words (show me, give me, please, etc.)\n- Keep colors, objects, actions.\n- Translate to English if needed.\n- Do NOT add new details.\n\nUser Query: ").data
  ++ input_query
  ++ ("\n\nRespond with only the rewritten caption.").data

/-- Step 2 of `translate`: `user_query.strip().lower()`. -/
def normalizeQuery (user_query : PyStr) : PyStr := lower (strip user_query)

/-- Step 3 of `translate`: truncate to `MAX_QUERY_LENGTH` characters when
longer (`normalized_query[:200]`). -/
def truncateQuery (normalized_query : PyStr) : PyStr :=
  if MAX_QUERY_LENGTH < normalized_query.length then
    normalized_query.take MAX_QUERY_LENGTH
  else normalized_query

/-- Method `QueryTranslator.translate`, shallow embedding of
`backend/query_translator.py` lines 66-142 (named after the module-level
entry point `translate_query`, since Mathlib already owns the name
`translate`).  The Text Completion Provider
(`self.llm.invoke(prompt).content`) is the oracle `llm`, applied to the
formatted prompt.  The result carries the cache state after the call and
the number of provider invocations made. -/
def translate_query (llm : PyStr → Except PError PyStr) (cache : Cache)
    (user_query : PyStr) : TResult :=
  if (strip user_query).isEmpty then
    ⟨Except.error TransError.invalidQuery, cache, 0⟩
  else
    let normalized_query := truncateQuery (normalizeQuery user_query)
    match cache.lookup normalized_query with
    | some cached => ⟨Except.ok cached, cache, 0⟩
    | none =>
      if !(is_conversational normalized_query) then
        ⟨Except.ok normalized_query, cache, 0⟩
      else
        match llm (prompt_template normalized_query) with
        | Except.ok content =>
          let final_caption := strip content
          ⟨Except.ok final_caption,
           (normalized_query, final_caption) :: cache, 1⟩
        | Except.error e =>
          ⟨Except.error (TransError.translationFailure e), cache, 1⟩

/-- An embedding vector produced by the Embedding Provider (CLIP); its
internals are irrelevant to the core, so it is an abstract numeric
list. -/
abbrev Vec := List Int

/-- A filesystem path, as its list of segments; `basename` is the last
segment. -/
abbrev FPath := List PyStr

/-- Python `os.path.basename` on a segment path. -/
def basename (p : FPath) : PyStr := p.getLastD []

/-- The payload stored with every indexed point
(`{filename, path, category}`, see `ingestion.py`). -/
structure Payload where
  filename : PyStr
  path : FPath
  category : Option PyStr
deriving DecidableEq

/-- Constant `IndexService.VECTOR_NAME = "default"`: the named-vector slot. -/
def VECTOR_NAME : PyStr := "default".data

/-- A Qdrant point (`models.PointStruct`): id (`uuid4()`, modelled as a
fresh natural number drawn from a counter), the named vector
`{VECTOR_NAME: vec}`, and the payload. -/
structure Point where
  id : Nat
  vector : PyStr × Vec
  payload : Payload
deriving DecidableEq

/-- One `client.upsert(...)` call: its point batch and its `wait`
flag. -/
structure UpsertCall where
  points : List Point
  wait : Bool
deriving DecidableEq

/-- A filter condition (`models.FieldCondition`); this system only ever
filters on payload field equality, and only the `category` field is used
(spec section 6). -/
inductive QCond where
  | fieldMatch (key : PyStr) (value : Option PyStr)
deriving DecidableEq

/-- Filter `models.Filter(must=...)`. -/
structure QdrantFilter where
  must : List QCond
deriving DecidableEq

/-- Whether a point satisfies one condition. -/
def matchesCond (p : Point) : QCond → Bool
  | QCond.fieldMatch key value =>
    key == "category".data && p.payload.category == value

/-- Whether a point satisfies a filter: all of its `must` conditions
hold (an empty `must` list matches every point). -/
def matchesFilter (f : QdrantFilter) (p : Point) : Bool :=
  f.must.all (matchesCond p)

/-- Value `models.Filter(must=[])`, the filter `clear_collection` passes to
the store's delete call. -/
def clearFilter : QdrantFilter := ⟨[]⟩

/-- Observable state threaded through the ingestion service: the uuid
counter, the Vector Store's point set for the collection, and the call
log of the two external collaborators (arguments of every embedding
call and of every upsert call, in order, including calls that
failed). -/
structure IngestState where
  nextId : Nat
  store : List Point
  embedCalls : List (List FPath)
  upsertCalls : List UpsertCall
deriving DecidableEq

/-- The process-start state: empty collection, no calls made. -/
def initState : IngestState := ⟨0, [], [], []⟩

/-- Exception `SemanticImageSearchException` as raised by `IndexService`:
`indexingFailure` carries the message "Failed to index ..." and wraps
the cause; `clearFailure` is "Failed to clear collection". -/
inductive IngestError where
  | indexingFailure (cause : PError)
  | clearFailure (cause : PError)
deriving DecidableEq

/-- The external collaborators of the ingestion/search services:
`embed` is `embed_image_paths` (may raise), `upsertErr` injects a store
failure for an upsert batch (`none` = acknowledged), `deleteErr`
likewise for the delete call of `clear_collection`, and `embedText` /
`score` belong to the search path. -/
structure IngestEnv where
  embed : List FPath → Except PError (List Vec)
  upsertErr : List Point → Option PError
  deleteErr : QdrantFilter → Option PError
  embedText : PyStr → Vec
  score : Vec → Vec → Int

/-- Qdrant upsert of a single point: replace the point with the same id
if present, otherwise append. -/
def upsertOne (store : List Point) (pt : Point) : List Point :=
  if store.any (fun q => q.id == pt.id) then
    store.map (fun q => if q.id == pt.id then pt else q)
  else store ++ [pt]

/-- Qdrant upsert of a batch of points. -/
def upsertPoints (store : List Point) (pts : List Point) : List Point :=
  pts.foldl upsertOne store

/-- The point list built in `index_folder`:
`[PointStruct(id=str(uuid4()), vector={VECTOR_NAME: v}, payload=p) for v, p in zip(vectors, payloads)]`,
with ids drawn from the counter starting at `n`. -/
def mkPoints : Nat → List (Vec × Payload) → List Point
  | _, [] => []
  | n, (v, pl) :: rest => ⟨n, (VECTOR_NAME, v), pl⟩ :: mkPoints (n + 1) rest

/-- Test `f.lower().endswith((".jpg", ".jpeg", ".png", ".webp"))`. -/
def extensions : List PyStr :=
  [".jpg".data, ".jpeg".data, ".png".data, ".webp".data]

/-- Whether a filename passes the extension allow-list
(case-insensitive). -/
def hasImageExt (f : PyStr) : Bool :=
  extensions.any (fun ext => ext.isSuffixOf (lower f))

/-- Method `IndexService.index_image` (`ingestion.py` lines 58-105): embed one
image, build one point with a fresh id, payload
`{filename: basename(path), path, category}`, upsert it with
`wait=True`; on any error, wrap it in `SemanticImageSearchException`
("Failed to index single image").  Returns the state after the call and
the raised error, if any. -/
def index_image (env : IngestEnv) (st : IngestState) (image_path : FPath)
    (category : Option PyStr) : IngestState × Option IngestError :=
  let st1 := { st with embedCalls := st.embedCalls ++ [[image_path]] }
  match env.embed [image_path] with
  | Except.error e => (st1, some (IngestError.indexingFailure e))
  | Except.ok [] =>
    -- `embed_image_paths([image_path])[0]` raises IndexError on an
    -- empty result list, which the handler wraps like any other error.
    (st1, some (IngestError.indexingFailure PError.indexError))
  | Except.ok (vec :: _) =>
    let payload : Payload := ⟨basename image_path, image_path, category⟩
    let point : Point := ⟨st1.nextId, (VECTOR_NAME, vec), payload⟩
    let st2 := { st1 with
      nextId := st1.nextId + 1,
      upsertCalls := st1.upsertCalls ++ [⟨[point], true⟩] }
    match env.upsertErr [point] with
    | some e => (st2, some (IngestError.indexingFailure e))
    | none => ({ st2 with store := upsertPoints st2.store [point] }, none)

/-- The image paths collected for one directory of the walk:
files passing the extension allow-list, joined to the directory
path. -/
def dirImagePaths (dirpath : FPath) (files : List PyStr) : List FPath :=
  (files.filter hasImageExt).map (fun f => dirpath ++ [f])

/-- The payloads collected for one directory of the walk: category is
`os.path.basename(dirpath)`, the immediate directory name. -/
def dirPayloads (dirpath : FPath) (files : List PyStr) : List Payload :=
  (files.filter hasImageExt).map
    (fun f => ⟨f, dirpath ++ [f], some (basename dirpath)⟩)

/-- The body of `index_folder`'s walk loop (`ingestion.py` lines
126-186) for one `(dirpath, files)` entry: collect qualifying files,
skip the directory if there are none, otherwise embed the whole batch
with one provider call and upsert the resulting points as one batch
with `wait=True`.  Returns the updated state and the raw cause of the
first failure, if any. -/
def processDir (env : IngestEnv) (st : IngestState) (dirpath : FPath)
    (files : List PyStr) : IngestState × Option PError :=
  let image_paths := dirImagePaths dirpath files
  let payloads := dirPayloads dirpath files
  if image_paths.isEmpty then (st, none)
  else
    let st1 := { st with embedCalls := st.embedCalls ++ [image_paths] }
    match env.embed image_paths with
    | Except.error e => (st1, some e)
    | Except.ok vectors =>
      let points := mkPoints st1.nextId (vectors.zip payloads)
      let st2 := { st1 with
        nextId := st1.nextId + points.length,
        upsertCalls := st1.upsertCalls ++ [⟨points, true⟩] }
      match env.upsertErr points with
      | some e => (st2, some e)
      | none => ({ st2 with store := upsertPoints st2.store points }, none)

/-- Loop of `index_folder` over the remaining `os.walk` output:
directories are processed in order, and the first raised error aborts
the loop, leaving earlier directories' upserts in place. -/
def runDirs (env : IngestEnv) :
    IngestState → List (FPath × List PyStr) → IngestState × Option PError
  | st, [] => (st, none)
  | st, (dp, fs) :: rest =>
    match processDir env st dp fs with
    | (st1, none) => runDirs env st1 rest
    | (st1, some e) => (st1, some e)

/-- Method `IndexService.index_folder` (`ingestion.py` lines 110-199), applied
to the `os.walk` output for the root folder (`os.walk` is an OS call;
its output list pairs every visited directory path with the plain files
directly inside it, root first).  Any error raised inside the loop is
wrapped in `SemanticImageSearchException` ("Failed to index folder"). -/
def index_folder (env : IngestEnv) (st : IngestState)
    (walkOut : List (FPath × List PyStr)) : IngestState × Option IngestError :=
  match runDirs env st walkOut with
  | (st1, none) => (st1, none)
  | (st1, some e) => (st1, some (IngestError.indexingFailure e))

/-- A directory tree: the plain files directly inside the directory and
its named subdirectories. -/
inductive DirTree where
  | node (files : List PyStr) (subdirs : List (PyStr × DirTree))

/-- Python `os.walk` over a directory tree located at path `p`: yields the
directory itself first, then each subtree in order (top-down). -/
def walk (p : FPath) : DirTree → List (FPath × List PyStr)
  | DirTree.node files subdirs =>
    (p, files) ::
      (subdirs.attach.map (fun nc => walk (p ++ [nc.1.1]) nc.1.2)).flatten
termination_by t => sizeOf t
decreasing_by
  have h := List.sizeOf_lt_of_mem nc.2
  obtain ⟨⟨a, b⟩, hm⟩ := nc
  simp at h ⊢
  omega

/-- Method `IndexService.clear_collection` (`ingestion.py` lines 204-230):
issues one store delete with `models.Filter(must=[])`, which selects
every point; on a store error, wraps it in
`SemanticImageSearchException` ("Failed to clear collection"). -/
def clear_collection (env : IngestEnv) (st : IngestState) :
    IngestState × Option IngestError :=
  match env.deleteErr clearFilter with
  | some e => (st, some (IngestError.clearFailure e))
  | none =>
    ({ st with store := st.store.filter (fun p => !(matchesFilter clearFilter p)) },
     none)

/-- Modelled from the spec: the repository's search service
(`retriever.py`, `ImageSearchService`) is not under `src/`; only its
callers in `main.py` are.  Spec section 4.3: a search issues a
similarity query against the Vector Store restricted to the named
vector slot used at ingestion, with an equality filter on `category`
when present, limited to `topK`, in the store's native
descending-similarity order.  Descending order by score, modelled with
insertion sort. -/
def insertDesc (x : Point × Int) : List (Point × Int) → List (Point × Int)
  | [] => [x]
  | y :: ys => if y.2 ≤ x.2 then x :: y :: ys else y :: insertDesc x ys

/-- Modelled from the spec: sort scored points by descending score (the
store's native result order, spec section 4.3). -/
def sortByScoreDesc : List (Point × Int) → List (Point × Int)
  | [] => []
  | x :: xs => insertDesc x (sortByScoreDesc xs)

/-- Modelled from the spec: the Vector Store's similarity search (spec
section 6) — score every point of the collection that carries the named
vector slot and passes the category filter, order by descending score,
return at most `topK`. -/
def searchStore (score : Vec → Vec → Int) (store : List Point) (qv : Vec)
    (topK : Nat) (catFilter : Option PyStr) : List (Point × Int) :=
  let eligible := store.filter (fun p =>
    p.vector.1 == VECTOR_NAME &&
      (match catFilter with
       | none => true
       | some c => p.payload.category == some c))
  (sortByScoreDesc (eligible.map (fun p => (p, score qv p.vector.2)))).take topK

/-- Modelled from the spec: `searchByText` (spec section 4.3) — embed
the translated query and search the store. -/
def search_by_text (env : IngestEnv) (st : IngestState) (q : PyStr)
    (topK : Nat) (catFilter : Option PyStr) : List (Point × Int) :=
  searchStore env.score st.store (env.embedText q) topK catFilter

/-- Modelled from the spec: `searchByImage` (spec section 4.3) —
identical to the text path except the Embedding Provider is invoked on
the staged image file. -/
def search_by_image (env : IngestEnv) (st : IngestState) (img : FPath)
    (topK : Nat) (catFilter : Option PyStr) : List (Point × Int) :=
  match env.embed [img] with
  | Except.ok (v :: _) => searchStore env.score st.store v topK catFilter
  | _ => []

/-- Steps 4-7 of `QueryTranslator.translate` (early cache check,
conversational detection, conditional LLM invocation, cache store) as a
standalone function of the already-normalized-and-truncated query, used
to state that all processing downstream of the length control operates
on the truncated string. -/
def translate_from_cache_check (llm : PyStr → Except PError PyStr)
    (cache : Cache) (normalized_query : PyStr) : TResult :=
  match cache.lookup normalized_query with
  | some cached => ⟨Except.ok cached, cache, 0⟩
  | none =>
    if !(is_conversational normalized_query) then
      ⟨Except.ok normalized_query, cache, 0⟩
    else
      match llm (prompt_template normalized_query) with
      | Except.ok content =>
        ⟨Except.ok (strip content),
         (normalized_query, strip content) :: cache, 1⟩
      | Except.error e =>
        ⟨Except.error (TransError.translationFailure e), cache, 1⟩

/-- Whether `v` is the whitespace-stripped output of a Text Completion
Provider call for the key `k` (the provider being the fixed oracle
`llm`, invoked on the formatted prompt for `k`). -/
def valueFromLLM (llm : PyStr → Except PError PyStr) (k v : PyStr) : Bool :=
  match llm (prompt_template k) with
  | Except.ok content => v == strip content
  | Except.error _ => false

/-- The cache invariant exactly as the specification claims it: every
key is a trimmed, lowercased string of length at most 200 that contains
a conversational trigger, and its value is the stripped provider output
for that key. -/
def cacheClaimInvariant (llm : PyStr → Except PError PyStr)
    (cache : Cache) : Prop :=
  ∀ e ∈ cache,
    strip e.1 = e.1 ∧ lower e.1 = e.1 ∧
    e.1.length ≤ MAX_QUERY_LENGTH ∧
    is_conversational e.1 = true ∧
    valueFromLLM llm e.1 e.2 = true

/-- The cache invariant the code actually maintains: as claimed, except
that a key produced by truncation (length exactly 200) may retain
trailing whitespace exposed by the cut, so only freedom from *leading*
whitespace holds unconditionally; keys not of length 200 are fully
trimmed. -/
def cacheCodeInvariant (llm : PyStr → Except PError PyStr)
    (cache : Cache) : Prop :=
  ∀ e ∈ cache,
    lstrip e.1 = e.1 ∧ (e.1.length = MAX_QUERY_LENGTH ∨ strip e.1 = e.1) ∧
    lower e.1 = e.1 ∧
    e.1.length ≤ MAX_QUERY_LENGTH ∧
    is_conversational e.1 = true ∧
    valueFromLLM llm e.1 e.2 = true

/-- The 26 upper/lower-case ASCII letter pairs, the non-identity graph
of `pyLower`. -/
def upperLowerPairs : List (Char × Char) :=
  [('A','a'), ('B','b'), ('C','c'), ('D','d'), ('E','e'), ('F','f'),
   ('G','g'), ('H','h'), ('I','i'), ('J','j'), ('K','k'), ('L','l'),
   ('M','m'), ('N','n'), ('O','o'), ('P','p'), ('Q','q'), ('R','r'),
   ('S','s'), ('T','t'), ('U','u'), ('V','v'), ('W','w'), ('X','x'),
   ('Y','y'), ('Z','z')]

/-- A Text Completion Provider that always fails (also stands in for
"never reached"). -/
def noLLM : PyStr → Except PError PyStr := fun _ => Except.error (PError.fail 0)

/-- A Text Completion Provider that always answers with the same
caption. -/
def okLLM : PyStr → Except PError PyStr := fun _ => Except.ok " a cat photo ".data

/-- A 201-character caption-style query (no conversational trigger). -/
def longQueryA : PyStr := List.replicate 201 'a'

/-- A 201-character conversational query whose 200th character (the
last one surviving truncation) is an interior space: "please ",
192 times 'a', a space, and 'b'. -/
def trickyQuery : PyStr :=
  "please ".data ++ List.replicate 192 'a' ++ [' ', 'b']

/-- The example directory tree of the specification:
`root/cats/{a.jpg, b.png, notes.txt}` and `root/dogs/c.webp`. -/
def exampleTree : DirTree :=
  DirTree.node []
    [("cats".data,
      DirTree.node ["a.jpg".data, "b.png".data, "notes.txt".data] []),
     ("dogs".data, DirTree.node ["c.webp".data] [])]

/-- The root path of the example tree. -/
def exampleRoot : FPath := ["root".data]

/-- The `os.walk` output for `exampleTree` at `exampleRoot`. -/
def exampleWalkOut : List (FPath × List PyStr) :=
  [(["root".data], []),
   (["root".data, "cats".data],
    ["a.jpg".data, "b.png".data, "notes.txt".data]),
   (["root".data, "dogs".data], ["c.webp".data])]

/-- Collaborators that always succeed: every image embeds to `[1]`. -/
def okEnv : IngestEnv :=
  { embed := fun paths => Except.ok (paths.map (fun _ => [1])),
    upsertErr := fun _ => none,
    deleteErr := fun _ => none,
    embedText := fun _ => [0],
    score := fun _ _ => 0 }

/-- Collaborators whose Embedding Provider fails exactly on the batch of
the `root/dogs` directory of the example tree. -/
def failDogsEnv : IngestEnv :=
  { okEnv with
    embed := fun paths =>
      if paths = [["root".data, "dogs".data, "c.webp".data]] then
        Except.error (PError.fail 7)
      else Except.ok (paths.map (fun _ => [1])) }

/-- Collaborators whose Vector Store rejects the delete call. -/
def failDeleteEnv : IngestEnv :=
  { okEnv with deleteErr := fun _ => some (PError.fail 9) }

/-- A store state holding one already-indexed point (id 0), with the
uuid counter ahead of every stored id. -/
def onePointState : IngestState :=
  { nextId := 1,
    store := [⟨0, (VECTOR_NAME, [1]),
               ⟨"a.jpg".data, ["root".data, "a.jpg".data], none⟩⟩],
    embedCalls := [],
    upsertCalls := [] }

example :
    (translate_query noLLM [] "  Red CAR ".data).output
      = Except.ok ("red car".data) := by decide

example :
    (translate_query (fun _ => Except.ok " a red sports car ".data) []
      "show me a red sports car".data)
      = ⟨Except.ok ("a red sports car".data),
         [("show me a red sports car".data, "a red sports car".data)], 1⟩ := by
  decide

example :
    (translate_query noLLM [] "   ".data).output
      = Except.error TransError.invalidQuery := by decide

/-- The point the example run builds for `root/cats/a.jpg`. -/
def catsPointA : Point :=
  ⟨0, (VECTOR_NAME, [1]),
   ⟨"a.jpg".data, ["root".data, "cats".data, "a.jpg".data], some ("cats".data)⟩⟩

/-- The point the example run builds for `root/cats/b.png`. -/
def catsPointB : Point :=
  ⟨1, (VECTOR_NAME, [1]),
   ⟨"b.png".data, ["root".data, "cats".data, "b.png".data], some ("cats".data)⟩⟩

/-- The point the example run builds for `root/dogs/c.webp`. -/
def dogsPointC : Point :=
  ⟨2, (VECTOR_NAME, [1]),
   ⟨"c.webp".data, ["root".data, "dogs".data, "c.webp".data], some ("dogs".data)⟩⟩

/-- The full observable state after indexing the example tree with
`okEnv` from the initial state: three points, one embedding call and
one upsert call per non-empty directory, `notes.txt` nowhere. -/
def exampleFinalState : IngestState :=
  { nextId := 3,
    store := [catsPointA, catsPointB, dogsPointC],
    embedCalls :=
      [[["root".data, "cats".data, "a.jpg".data],
        ["root".data, "cats".data, "b.png".data]],
       [["root".data, "dogs".data, "c.webp".data]]],
    upsertCalls :=
      [⟨[catsPointA, catsPointB], true⟩, ⟨[dogsPointC], true⟩] }

/-! ## Helper lemmas about the string model -/

theorem pyLower_spec (c : Char) :
    pyLower c = c ∨ (c, pyLower c) ∈ upperLowerPairs := by
  unfold pyLower
  split
  all_goals try (right; decide)
  left; rfl

theorem isSpace_pyLower (c : Char) : isSpace (pyLower c) = isSpace c := by
  rcases pyLower_spec c with h | h
  · rw [h]
  · fin_cases h <;> decide

theorem pyLower_idem (c : Char) : pyLower (pyLower c) = pyLower c := by
  rcases pyLower_spec c with h | h
  · rw [h, h]
  · fin_cases h <;> decide

theorem lower_idem (s : PyStr) : lower (lower s) = lower s := by
  simp [lower, List.map_map, Function.comp_def, pyLower_idem]

theorem length_lower (s : PyStr) : (lower s).length = s.length := by
  simp [lower]

theorem lower_take (n : Nat) (s : PyStr) :
    lower (s.take n) = (lower s).take n := by
  simp [lower, List.map_take]

theorem dropWhile_isSpace_lower (s : PyStr) :
    (lower s).dropWhile isSpace = lower (s.dropWhile isSpace) := by
  simp [lower, List.dropWhile_map, Function.comp_def, isSpace_pyLower]

theorem reverse_lower (s : PyStr) : (lower s).reverse = lower s.reverse := by
  simp [lower, List.map_reverse]

theorem lstrip_lower (s : PyStr) : lstrip (lower s) = lower (lstrip s) := by
  simp [lstrip, dropWhile_isSpace_lower]

theorem rstrip_lower (s : PyStr) : rstrip (lower s) = lower (rstrip s) := by
  simp [rstrip, reverse_lower, dropWhile_isSpace_lower]

theorem strip_lower (s : PyStr) : strip (lower s) = lower (strip s) := by
  simp [strip, lstrip_lower, rstrip_lower]

theorem lstrip_idem (s : PyStr) : lstrip (lstrip s) = lstrip s := by
  simp [lstrip, List.dropWhile_idempotent]

theorem rstrip_idem (s : PyStr) : rstrip (rstrip s) = rstrip s := by
  simp [rstrip, List.reverse_reverse, List.dropWhile_idempotent]

theorem rstrip_prefix_of_self (s : PyStr) : rstrip s <+: s := by
  have h : (rstrip s).reverse = s.reverse.dropWhile isSpace := by
    simp [rstrip, List.reverse_reverse]
  rw [← List.reverse_suffix, h]
  exact List.dropWhile_suffix isSpace

theorem lstrip_eq_self_mono {u t : PyStr} (h : u <+: t)
    (ht : lstrip t = t) : lstrip u = u := by
  cases u with
  | nil => rfl
  | cons a u' =>
    obtain ⟨r, hr⟩ := h
    by_cases hsp : isSpace a = true
    · exfalso
      rw [← hr] at ht
      simp [lstrip, List.dropWhile_cons, hsp] at ht
      have hsuf := List.dropWhile_suffix (l := u' ++ r) isSpace
      have hlen := hsuf.length_le
      rw [ht] at hlen
      simp only [List.length_cons] at hlen
      omega
    · simp [lstrip, List.dropWhile_cons, hsp]

theorem lstrip_strip (s : PyStr) : lstrip (strip s) = strip s :=
  lstrip_eq_self_mono (rstrip_prefix_of_self (lstrip s)) (lstrip_idem s)

theorem strip_idem (s : PyStr) : strip (strip s) = strip s := by
  show rstrip (lstrip (strip s)) = strip s
  rw [lstrip_strip]
  show rstrip (rstrip (lstrip s)) = rstrip (lstrip s)
  exact rstrip_idem (lstrip s)

theorem lstrip_take (n : Nat) (s : PyStr) (h : lstrip s = s) :
    lstrip (s.take n) = s.take n := by
  have hp := List.take_prefix n s
  exact lstrip_eq_self_mono hp h

theorem containsPattern_iff {pat s : PyStr} :
    containsPattern pat s = true ↔ pat <:+: s := by
  simp only [containsPattern, List.any_eq_true, List.mem_tails,
    List.isPrefixOf_iff_prefix, List.infix_iff_prefix_suffix]
  constructor
  · rintro ⟨t, h1, h2⟩; exact ⟨t, h2, h1⟩
  · rintro ⟨t, h1, h2⟩; exact ⟨t, h2, h1⟩

theorem is_conversational_mono {u s : PyStr}
    (hu : is_conversational u = true) (h : u <:+: s) :
    is_conversational s = true := by
  simp only [is_conversational, List.any_eq_true] at hu ⊢
  obtain ⟨pat, hmem, hpat⟩ := hu
  exact ⟨pat, hmem, containsPattern_iff.mpr ((containsPattern_iff.mp hpat).trans h)⟩

theorem is_conversational_take {n : Nat} {s : PyStr}
    (h : is_conversational (s.take n) = true) : is_conversational s = true := by
  have hp := List.take_prefix n s
  exact is_conversational_mono h hp.isInfix

theorem chat_patterns_ne_nil : ∀ pat ∈ CHAT_PATTERNS, pat ≠ [] := by decide

theorem is_conversational_ne_nil {s : PyStr}
    (h : is_conversational s = true) : s ≠ [] := by
  simp only [is_conversational, List.any_eq_true] at h
  obtain ⟨pat, hmem, hpat⟩ := h
  have hin := containsPattern_iff.mp hpat
  intro hs
  subst hs
  rw [List.infix_nil] at hin
  exact chat_patterns_ne_nil pat hmem hin

theorem truncateQuery_nil : truncateQuery [] = [] := by decide

theorem truncateQuery_ne_nil {s : PyStr} (h : truncateQuery s ≠ []) :
    s ≠ [] := by
  intro hs
  subst hs
  exact h truncateQuery_nil

theorem truncateQuery_length (s : PyStr) :
    (truncateQuery s).length ≤ MAX_QUERY_LENGTH := by
  unfold truncateQuery
  split
  · simp [List.length_take]
  · omega

theorem lower_truncateQuery (s : PyStr) (h : lower s = s) :
    lower (truncateQuery s) = truncateQuery s := by
  unfold truncateQuery
  split
  · rw [lower_take, h]
  · exact h

theorem lstrip_truncateQuery (s : PyStr) (h : lstrip s = s) :
    lstrip (truncateQuery s) = truncateQuery s := by
  unfold truncateQuery
  split
  · exact lstrip_take _ _ h
  · exact h

theorem lower_normalizeQuery (q : PyStr) :
    lower (normalizeQuery q) = normalizeQuery q := by
  simp [normalizeQuery, lower_idem]

theorem lstrip_normalizeQuery (q : PyStr) :
    lstrip (normalizeQuery q) = normalizeQuery q := by
  simp only [normalizeQuery]
  rw [lstrip_lower, lstrip_strip]

theorem strip_normalizeQuery (q : PyStr) :
    strip (normalizeQuery q) = normalizeQuery q := by
  simp only [normalizeQuery]
  rw [strip_lower, strip_idem]

theorem lookup_none_of_keys_conversational {cache : Cache} {k : PyStr}
    (hkeys : ∀ e ∈ cache, is_conversational e.1 = true)
    (hk : is_conversational k = false) : cache.lookup k = none := by
  induction cache with
  | nil => rfl
  | cons e rest ih =>
    obtain ⟨a, b⟩ := e
    have ha := hkeys (a, b) (by simp)
    simp only at ha
    have hne : k ≠ a := by
      intro hka
      rw [hka, ha] at hk
      cases hk
    have hbeq : (k == a) = false := beq_eq_false_iff_ne.mpr hne
    simp [List.lookup, hbeq]
    intro a' b' hmem hka
    have h' := hkeys (a', b') (List.mem_cons_of_mem _ hmem)
    simp only at h'
    rw [hka] at hk
    rw [h'] at hk
    cases hk

theorem strip_ne_nil_of_normalize_ne_nil {q : PyStr}
    (h : normalizeQuery q ≠ []) : (strip q).isEmpty = false := by
  rw [List.isEmpty_eq_false]
  intro hs
  apply h
  simp [normalizeQuery, hs, lower]

theorem strip_not_isEmpty_of_conversational_trunc {q : PyStr}
    (h : is_conversational (truncateQuery (normalizeQuery q)) = true) :
    (strip q).isEmpty = false :=
  strip_ne_nil_of_normalize_ne_nil
    (truncateQuery_ne_nil (is_conversational_ne_nil h))

theorem translate_query_eq_from_cache_check
    (llm : PyStr → Except PError PyStr) (cache : Cache) (q : PyStr)
    (hne : (strip q).isEmpty = false) :
    translate_query llm cache q
      = translate_from_cache_check llm cache (truncateQuery (normalizeQuery q)) := by
  unfold translate_query translate_from_cache_check
  rw [if_neg (by rw [hne]; exact Bool.false_ne_true)]

theorem from_cache_check_hit {llm : PyStr → Except PError PyStr}
    {cache : Cache} {nq v : PyStr} (h : cache.lookup nq = some v) :
    translate_from_cache_check llm cache nq = ⟨Except.ok v, cache, 0⟩ := by
  simp [translate_from_cache_check, h]

theorem from_cache_check_caption {llm : PyStr → Except PError PyStr}
    {cache : Cache} {nq : PyStr} (h1 : cache.lookup nq = none)
    (h2 : is_conversational nq = false) :
    translate_from_cache_check llm cache nq = ⟨Except.ok nq, cache, 0⟩ := by
  simp [translate_from_cache_check, h1, h2]

theorem from_cache_check_llm_ok {llm : PyStr → Except PError PyStr}
    {cache : Cache} {nq c : PyStr} (h1 : cache.lookup nq = none)
    (h2 : is_conversational nq = true)
    (h3 : llm (prompt_template nq) = Except.ok c) :
    translate_from_cache_check llm cache nq
      = ⟨Except.ok (strip c), (nq, strip c) :: cache, 1⟩ := by
  simp [translate_from_cache_check, h1, h2, h3]

theorem from_cache_check_llm_error {llm : PyStr → Except PError PyStr}
    {cache : Cache} {nq : PyStr} {e : PError} (h1 : cache.lookup nq = none)
    (h2 : is_conversational nq = true)
    (h3 : llm (prompt_template nq) = Except.error e) :
    translate_from_cache_check llm cache nq
      = ⟨Except.error (TransError.translationFailure e), cache, 1⟩ := by
  simp [translate_from_cache_check, h1, h2, h3]

theorem from_cache_check_cache_shape (llm : PyStr → Except PError PyStr)
    (cache : Cache) (nq : PyStr) :
    (translate_from_cache_check llm cache nq).cache = cache ∨
    ∃ v, (translate_from_cache_check llm cache nq).cache = (nq, v) :: cache := by
  cases hl : cache.lookup nq with
  | some v => rw [from_cache_check_hit hl]; left; rfl
  | none =>
    cases hc : is_conversational nq with
    | false => rw [from_cache_check_caption hl hc]; left; rfl
    | true =>
      cases hm : llm (prompt_template nq) with
      | ok c =>
        rw [from_cache_check_llm_ok hl hc hm]
        right
        exact ⟨strip c, rfl⟩
      | error e => rw [from_cache_check_llm_error hl hc hm]; left; rfl

theorem strip_or_length_truncate_normalize (q : PyStr) :
    (truncateQuery (normalizeQuery q)).length = MAX_QUERY_LENGTH ∨
    strip (truncateQuery (normalizeQuery q)) = truncateQuery (normalizeQuery q) := by
  unfold truncateQuery
  split
  · left
    rw [List.length_take]
    omega
  · right
    exact strip_normalizeQuery q

/-! ## Claim theorems: query translator -/

/-- C8: if the Text Completion Provider call made by `translate` fails
(or times out), `translate` fails with `TranslationFailure` wrapping the
underlying cause, and the translation cache is left unchanged — no
partial cache entry is written for the query. -/
theorem translate_llm_failure_spec
    (llm : PyStr → Except PError PyStr) (cache : Cache) (q : PyStr) (e : PError)
    (hmiss : cache.lookup (truncateQuery (normalizeQuery q)) = none)
    (hconv : is_conversational (truncateQuery (normalizeQuery q)) = true)
    (hllm : llm (prompt_template (truncateQuery (normalizeQuery q)))
      = Except.error e) :
    translate_query llm cache q
      = ⟨Except.error (TransError.translationFailure e), cache, 1⟩ := by
  rw [translate_query_eq_from_cache_check llm cache q
    (strip_not_isEmpty_of_conversational_trunc hconv)]
  exact from_cache_check_llm_error hmiss hconv hllm

/-- Witness for C8: the always-failing provider on a conversational
query makes `translate` raise a wrapped failure and leaves the empty
cache empty. -/
theorem translate_llm_failure_spec_witness :
    translate_query noLLM [] "please a cat".data
      = ⟨Except.error (TransError.translationFailure (PError.fail 0)), [], 1⟩ :=
  translate_llm_failure_spec noLLM [] "please a cat".data (PError.fail 0)
    (by decide) (by decide) (by decide)

/-- C3: for every raw query whose normalized form contains a
conversational trigger, calling `translate` twice with the same input
(with a provider that answers every prompt) invokes the Text Completion
Provider at most once across the two calls, both calls return the same
output, and that output is a successfully translated string. -/
theorem translate_twice_cached
    (llm : PyStr → Except PError PyStr) (cache : Cache) (q : PyStr)
    (hconv : is_conversational (normalizeQuery q) = true)
    (hllm : ∀ p, ∃ c, llm p = Except.ok c) :
    (translate_query llm cache q).llmCalls
        + (translate_query llm (translate_query llm cache q).cache q).llmCalls ≤ 1 ∧
    (translate_query llm (translate_query llm cache q).cache q).output
        = (translate_query llm cache q).output ∧
    ∃ s, (translate_query llm cache q).output = Except.ok s := by
  have hne : (strip q).isEmpty = false :=
    strip_ne_nil_of_normalize_ne_nil (is_conversational_ne_nil hconv)
  rw [translate_query_eq_from_cache_check llm cache q hne]
  cases hl : cache.lookup (truncateQuery (normalizeQuery q)) with
  | some v =>
    rw [from_cache_check_hit hl]
    rw [translate_query_eq_from_cache_check llm cache q hne,
      from_cache_check_hit hl]
    exact ⟨by simp, rfl, v, rfl⟩
  | none =>
    cases hct : is_conversational (truncateQuery (normalizeQuery q)) with
    | false =>
      rw [from_cache_check_caption hl hct]
      rw [translate_query_eq_from_cache_check llm cache q hne,
        from_cache_check_caption hl hct]
      exact ⟨by simp, rfl, _, rfl⟩
    | true =>
      obtain ⟨c, hc⟩ := hllm (prompt_template (truncateQuery (normalizeQuery q)))
      rw [from_cache_check_llm_ok hl hct hc]
      rw [translate_query_eq_from_cache_check llm
        ((truncateQuery (normalizeQuery q), strip c) :: cache) q hne]
      rw [from_cache_check_hit (List.lookup_cons_self)]
      exact ⟨by simp, rfl, _, rfl⟩

/-- Witness for C3 at a concrete conversational query with a provider
that always answers. -/
theorem translate_twice_cached_witness :
    (translate_query okLLM [] "show me cats".data).llmCalls
        + (translate_query okLLM
            (translate_query okLLM [] "show me cats".data).cache
            "show me cats".data).llmCalls ≤ 1 ∧
    (translate_query okLLM
        (translate_query okLLM [] "show me cats".data).cache
        "show me cats".data).output
      = (translate_query okLLM [] "show me cats".data).output ∧
    ∃ s, (translate_query okLLM [] "show me cats".data).output = Except.ok s :=
  translate_twice_cached okLLM [] "show me cats".data (by decide)
    (fun _ => ⟨" a cat photo ".data, rfl⟩)

/-- C4: for every raw query whose normalized (trimmed, lowercased) form
is longer than 200 characters, `translate` truncates it to exactly 200
characters before the cache comparison, before conversational detection
and before any cache write: the whole remainder of the call is the
cache-check-onwards pipeline applied to the truncated string, and any
key written to the cache is exactly that truncated string. -/
theorem translate_truncation_spec
    (llm : PyStr → Except PError PyStr) (cache : Cache) (q : PyStr)
    (hlong : MAX_QUERY_LENGTH < (normalizeQuery q).length) :
    ((normalizeQuery q).take MAX_QUERY_LENGTH).length = MAX_QUERY_LENGTH ∧
    translate_query llm cache q
      = translate_from_cache_check llm cache
          ((normalizeQuery q).take MAX_QUERY_LENGTH) ∧
    ((translate_query llm cache q).cache = cache ∨
     ∃ v, (translate_query llm cache q).cache
        = ((normalizeQuery q).take MAX_QUERY_LENGTH, v) :: cache) := by
  have hne : (strip q).isEmpty = false := by
    apply strip_ne_nil_of_normalize_ne_nil
    intro h
    rw [h] at hlong
    simp [MAX_QUERY_LENGTH] at hlong
  have htr : truncateQuery (normalizeQuery q)
      = (normalizeQuery q).take MAX_QUERY_LENGTH := by
    unfold truncateQuery
    rw [if_pos hlong]
  refine ⟨?_, ?_, ?_⟩
  · rw [List.length_take]
    omega
  · rw [translate_query_eq_from_cache_check llm cache q hne, htr]
  · rw [translate_query_eq_from_cache_check llm cache q hne, htr]
    exact from_cache_check_cache_shape llm cache _

/-- Witness for C4: a 201-character query is processed as its
200-character truncation. -/
theorem translate_truncation_spec_witness :
    ((normalizeQuery longQueryA).take MAX_QUERY_LENGTH).length
        = MAX_QUERY_LENGTH ∧
    translate_query noLLM [] longQueryA
      = translate_from_cache_check noLLM []
          ((normalizeQuery longQueryA).take MAX_QUERY_LENGTH) ∧
    ((translate_query noLLM [] longQueryA).cache = [] ∨
     ∃ v, (translate_query noLLM [] longQueryA).cache
        = ((normalizeQuery longQueryA).take MAX_QUERY_LENGTH, v) :: []) :=
  translate_truncation_spec noLLM [] longQueryA (by decide)

/-- C1 counterexample: the 201-character caption-style query `'a' * 201`
is non-empty and contains no conversational trigger, yet `translate`
does not return its trimmed, lowercased form (it returns the
200-character truncation instead) — even though no provider call occurs
and the cache is untouched. -/
theorem translate_caption_identity_cex :
    (strip longQueryA).isEmpty = false ∧
    is_conversational (normalizeQuery longQueryA) = false ∧
    (translate_query noLLM [] longQueryA).output
        ≠ Except.ok (normalizeQuery longQueryA) ∧
    (translate_query noLLM [] longQueryA).llmCalls = 0 ∧
    (translate_query noLLM [] longQueryA).cache = [] := by decide

/-- C1 (amended): for every non-empty raw query whose trimmed,
lowercased form contains no conversational trigger, and any cache state
in which every stored key contains a trigger (as holds for every cache
state the translator can produce, see the cache invariant theorem),
`translate` returns the trimmed, lowercased query truncated to 200
characters — which is `normalize(q)` itself whenever that is at most
200 characters — makes no Text Completion Provider call, and leaves the
cache unmodified. -/
theorem translate_caption_identity
    (llm : PyStr → Except PError PyStr) (cache : Cache) (q : PyStr)
    (hkeys : ∀ e ∈ cache, is_conversational e.1 = true)
    (hne : (strip q).isEmpty = false)
    (hconv : is_conversational (normalizeQuery q) = false) :
    translate_query llm cache q
      = ⟨Except.ok (truncateQuery (normalizeQuery q)), cache, 0⟩ := by
  have hct : is_conversational (truncateQuery (normalizeQuery q)) = false := by
    unfold truncateQuery
    split
    · cases hx : is_conversational ((normalizeQuery q).take MAX_QUERY_LENGTH) with
      | false => rfl
      | true =>
        rw [is_conversational_take hx] at hconv
        cases hconv
    · exact hconv
  have hmiss := lookup_none_of_keys_conversational hkeys hct
  rw [translate_query_eq_from_cache_check llm cache q hne]
  exact from_cache_check_caption hmiss hct

/-- Witness for C1 (amended) at the short caption-style query
"red car", where the truncation is the identity. -/
theorem translate_caption_identity_witness :
    translate_query noLLM [] "red car".data
      = ⟨Except.ok (truncateQuery (normalizeQuery "red car".data)), [], 0⟩ :=
  translate_caption_identity noLLM [] "red car".data
    (by intro e he; cases he) (by decide) (by decide)

/-- C10 counterexample: starting from the empty cache (which satisfies
the claimed invariant), translating `trickyQuery` — a 201-character
conversational query whose truncation ends on an interior space —
stores a cache key with trailing whitespace, so the claimed "every key
is a trimmed string" invariant is not preserved by `translate`. -/
theorem cache_invariant_cex :
    cacheClaimInvariant okLLM [] ∧
    ¬ cacheClaimInvariant okLLM (translate_query okLLM [] trickyQuery).cache := by
  unfold cacheClaimInvariant
  decide

/-- C10 (amended): the invariant the code actually maintains is
preserved by every `translate` call: every cached key is a lowercased
string of length at most 200 containing a conversational trigger, free
of leading whitespace, fully trimmed unless it has length exactly 200
(a truncated key may retain trailing whitespace exposed by the cut),
and its value is the whitespace-stripped provider output for that
key.  Caption-style queries are never cached. -/
theorem translate_preserves_cache_invariant
    (llm : PyStr → Except PError PyStr) (cache : Cache) (q : PyStr)
    (h : cacheCodeInvariant llm cache) :
    cacheCodeInvariant llm (translate_query llm cache q).cache := by
  by_cases hemp : (strip q).isEmpty = true
  · unfold translate_query
    rw [if_pos hemp]
    exact h
  · have hne : (strip q).isEmpty = false := by
      cases hx : (strip q).isEmpty
      · rfl
      · exact absurd hx hemp
    rw [translate_query_eq_from_cache_check llm cache q hne]
    cases hl : cache.lookup (truncateQuery (normalizeQuery q)) with
    | some v => rw [from_cache_check_hit hl]; exact h
    | none =>
      cases hc : is_conversational (truncateQuery (normalizeQuery q)) with
      | false => rw [from_cache_check_caption hl hc]; exact h
      | true =>
        cases hm : llm (prompt_template (truncateQuery (normalizeQuery q))) with
        | error e => rw [from_cache_check_llm_error hl hc hm]; exact h
        | ok c =>
          rw [from_cache_check_llm_ok hl hc hm]
          intro e he
          rcases List.mem_cons.mp he with rfl | hmem
          · refine ⟨?_, ?_, ?_, ?_, ?_, ?_⟩
            · exact lstrip_truncateQuery _ (lstrip_normalizeQuery q)
            · exact strip_or_length_truncate_normalize q
            · exact lower_truncateQuery _ (lower_normalizeQuery q)
            · exact truncateQuery_length _
            · exact hc
            · simp [valueFromLLM, hm]
          · exact h e hmem

/-- Witness for C10 (amended): the invariant holds after translating a
conversational query starting from the empty cache. -/
theorem translate_preserves_cache_invariant_witness :
    cacheCodeInvariant okLLM (translate_query okLLM [] "please cats".data).cache :=
  translate_preserves_cache_invariant okLLM [] "please cats".data
    (by intro e he; cases he)

/-! ## Helper lemmas about the ingestion model -/

theorem searchStore_nil (score : Vec → Vec → Int) (qv : Vec) (topK : Nat)
    (catFilter : Option PyStr) :
    searchStore score [] qv topK catFilter = [] := by
  simp [searchStore, sortByScoreDesc]

theorem upsertOne_append {store : List Point} {pt : Point}
    (h : ∀ q ∈ store, q.id ≠ pt.id) : upsertOne store pt = store ++ [pt] := by
  unfold upsertOne
  rw [if_neg]
  intro hc
  rw [List.any_eq_true] at hc
  obtain ⟨q, hq, hbe⟩ := hc
  exact h q hq (by simpa using hbe)

/-! ## Claim theorems: ingestion and collection management -/

/-- C2: `clearCollection` issues a store delete whose filter
(`Filter(must=[])`) selects every point — no restricting predicate — so
after a successful clear the collection is empty and any `search*` call
(text or image, any `topK`, any category filter) returns an empty
result set; on a store error it fails with `ClearFailure` wrapping the
cause and changes nothing. -/
theorem clear_collection_spec (env : IngestEnv) (st : IngestState) :
    (∀ p : Point, matchesFilter clearFilter p = true) ∧
    (env.deleteErr clearFilter = none →
      (clear_collection env st).2 = none ∧
      (clear_collection env st).1.store = [] ∧
      (∀ q k cf, search_by_text env (clear_collection env st).1 q k cf = []) ∧
      (∀ img k cf, search_by_image env (clear_collection env st).1 img k cf = [])) ∧
    (∀ e, env.deleteErr clearFilter = some e →
      clear_collection env st = (st, some (IngestError.clearFailure e))) := by
  refine ⟨fun p => rfl, ?_, ?_⟩
  · intro hdel
    have hcc : clear_collection env st
        = ({ st with
              store := st.store.filter (fun p => !(matchesFilter clearFilter p)) },
           none) := by
      unfold clear_collection
      rw [hdel]
    have hstore : st.store.filter (fun p => !(matchesFilter clearFilter p)) = [] := by
      simp [matchesFilter, clearFilter]
    refine ⟨by rw [hcc], by rw [hcc]; exact hstore, ?_, ?_⟩
    · intro q k cf
      rw [hcc]
      simp only [search_by_text]
      rw [hstore]
      exact searchStore_nil _ _ _ _
    · intro img k cf
      rw [hcc]
      simp only [search_by_image]
      cases he : env.embed [img] with
      | ok vs =>
        cases vs with
        | nil => rfl
        | cons v vrest =>
          simp only
          rw [hstore]
          exact searchStore_nil _ _ _ _
      | error e => rfl
  · intro e hdel
    unfold clear_collection
    rw [hdel]

/-- Witness for C2: clearing a one-point collection empties it and a
subsequent text search returns nothing; a failing store delete raises
`ClearFailure` wrapping the cause. -/
theorem clear_collection_spec_witness :
    (clear_collection okEnv onePointState).1.store = [] ∧
    search_by_text okEnv (clear_collection okEnv onePointState).1
      "cat".data 5 none = [] ∧
    clear_collection failDeleteEnv onePointState
      = (onePointState, some (IngestError.clearFailure (PError.fail 9))) :=
  ⟨((clear_collection_spec okEnv onePointState).2.1 rfl).2.1,
   ((clear_collection_spec okEnv onePointState).2.1 rfl).2.2.1 _ _ _,
   (clear_collection_spec failDeleteEnv onePointState).2.2 _ rfl⟩

theorem index_image_ok (env : IngestEnv) (st : IngestState)
    (image_path : FPath) (category : Option PyStr) (v : Vec) (rest : List Vec)
    (hembed : env.embed [image_path] = Except.ok (v :: rest))
    (hupsert : ∀ pts, env.upsertErr pts = none) :
    index_image env st image_path category
      = ({ st with
            nextId := st.nextId + 1,
            store := upsertPoints st.store
              [⟨st.nextId, (VECTOR_NAME, v),
                ⟨basename image_path, image_path, category⟩⟩],
            embedCalls := st.embedCalls ++ [[image_path]],
            upsertCalls := st.upsertCalls ++
              [⟨[⟨st.nextId, (VECTOR_NAME, v),
                  ⟨basename image_path, image_path, category⟩⟩], true⟩] },
         none) := by
  unfold index_image
  rw [hembed]
  simp only [hupsert]

/-- C9: calling `indexImage` twice with the same file path produces two
distinct indexed points with two distinct freshly generated ids — the
collection grows by two appended points, never an update of the
existing point.  (`hfresh` states that the uuid counter is ahead of
every stored id, which holds in every reachable state since ids are
only ever drawn from the counter.) -/
theorem index_image_twice_additive (env : IngestEnv) (st : IngestState)
    (image_path : FPath) (category : Option PyStr) (v : Vec) (rest : List Vec)
    (hfresh : ∀ p ∈ st.store, p.id < st.nextId)
    (hembed : env.embed [image_path] = Except.ok (v :: rest))
    (hupsert : ∀ pts, env.upsertErr pts = none) :
    ∃ pt1 pt2 : Point,
      (index_image env st image_path category).2 = none ∧
      (index_image env (index_image env st image_path category).1
          image_path category).2 = none ∧
      (index_image env (index_image env st image_path category).1
          image_path category).1.store = st.store ++ [pt1, pt2] ∧
      pt1.id ≠ pt2.id ∧
      pt1.payload = ⟨basename image_path, image_path, category⟩ ∧
      pt2.payload = pt1.payload := by
  refine ⟨⟨st.nextId, (VECTOR_NAME, v),
            ⟨basename image_path, image_path, category⟩⟩,
          ⟨st.nextId + 1, (VECTOR_NAME, v),
            ⟨basename image_path, image_path, category⟩⟩, ?_, ?_, ?_, ?_, rfl, rfl⟩
  · rw [index_image_ok env st image_path category v rest hembed hupsert]
  · rw [index_image_ok env st image_path category v rest hembed hupsert]
    rw [index_image_ok env _ image_path category v rest hembed hupsert]
  · rw [index_image_ok env st image_path category v rest hembed hupsert]
    rw [index_image_ok env _ image_path category v rest hembed hupsert]
    simp only [upsertPoints, List.foldl_cons, List.foldl_nil]
    rw [upsertOne_append (fun q hq => Nat.ne_of_lt (hfresh q hq))]
    rw [upsertOne_append ?fresh2]
    · simp
    case fresh2 =>
      intro q hq
      rcases List.mem_append.mp hq with hq1 | hq2
      · exact Nat.ne_of_lt (Nat.lt_succ_of_lt (hfresh q hq1))
      · simp at hq2
        rw [hq2]
        simp
  · simp

/-- Witness for C9: re-indexing `root/a.jpg` twice from the initial
state yields a two-point collection with ids 0 and 1. -/
theorem index_image_twice_additive_witness :
    ∃ pt1 pt2 : Point,
      (index_image okEnv initState ["root".data, "a.jpg".data] none).2 = none ∧
      (index_image okEnv
          (index_image okEnv initState ["root".data, "a.jpg".data] none).1
          ["root".data, "a.jpg".data] none).2 = none ∧
      (index_image okEnv
          (index_image okEnv initState ["root".data, "a.jpg".data] none).1
          ["root".data, "a.jpg".data] none).1.store
        = initState.store ++ [pt1, pt2] ∧
      pt1.id ≠ pt2.id ∧
      pt1.payload = ⟨basename ["root".data, "a.jpg".data],
                     ["root".data, "a.jpg".data], none⟩ ∧
      pt2.payload = pt1.payload :=
  index_image_twice_additive okEnv initState ["root".data, "a.jpg".data] none
    [1] [] (by intro p hp; cases hp) rfl (fun _ => rfl)

theorem processDir_empty (env : IngestEnv) (st : IngestState) (dirpath : FPath)
    (files : List PyStr) (h : files.filter hasImageExt = []) :
    processDir env st dirpath files = (st, none) := by
  simp [processDir, dirImagePaths, h]

theorem processDir_ok (env : IngestEnv) (st : IngestState) (dirpath : FPath)
    (files : List PyStr) (vectors : List Vec)
    (hne : files.filter hasImageExt ≠ [])
    (hembed : env.embed (dirImagePaths dirpath files) = Except.ok vectors)
    (hupsert : env.upsertErr
      (mkPoints st.nextId (vectors.zip (dirPayloads dirpath files))) = none) :
    processDir env st dirpath files
      = ({ st with
            nextId := st.nextId
              + (mkPoints st.nextId (vectors.zip (dirPayloads dirpath files))).length,
            store := upsertPoints st.store
              (mkPoints st.nextId (vectors.zip (dirPayloads dirpath files))),
            embedCalls := st.embedCalls ++ [dirImagePaths dirpath files],
            upsertCalls := st.upsertCalls ++
              [⟨mkPoints st.nextId (vectors.zip (dirPayloads dirpath files)), true⟩] },
         none) := by
  have hemp : (dirImagePaths dirpath files).isEmpty = false := by
    rw [List.isEmpty_eq_false]
    simp [dirImagePaths, hne]
  unfold processDir
  rw [if_neg (by rw [hemp]; exact Bool.false_ne_true)]
  rw [hembed]
  simp only [hupsert]

theorem processDir_embed_fail (env : IngestEnv) (st : IngestState)
    (dirpath : FPath) (files : List PyStr) (e : PError)
    (hne : files.filter hasImageExt ≠ [])
    (hembed : env.embed (dirImagePaths dirpath files) = Except.error e) :
    processDir env st dirpath files
      = ({ st with embedCalls := st.embedCalls ++ [dirImagePaths dirpath files] },
         some e) := by
  have hemp : (dirImagePaths dirpath files).isEmpty = false := by
    rw [List.isEmpty_eq_false]
    simp [dirImagePaths, hne]
  unfold processDir
  rw [if_neg (by rw [hemp]; exact Bool.false_ne_true)]
  rw [hembed]

theorem processDir_upsert_fail (env : IngestEnv) (st : IngestState)
    (dirpath : FPath) (files : List PyStr) (vectors : List Vec) (e : PError)
    (hne : files.filter hasImageExt ≠ [])
    (hembed : env.embed (dirImagePaths dirpath files) = Except.ok vectors)
    (hupsert : env.upsertErr
      (mkPoints st.nextId (vectors.zip (dirPayloads dirpath files))) = some e) :
    processDir env st dirpath files
      = ({ st with
            nextId := st.nextId
              + (mkPoints st.nextId (vectors.zip (dirPayloads dirpath files))).length,
            embedCalls := st.embedCalls ++ [dirImagePaths dirpath files],
            upsertCalls := st.upsertCalls ++
              [⟨mkPoints st.nextId (vectors.zip (dirPayloads dirpath files)), true⟩] },
         some e) := by
  have hemp : (dirImagePaths dirpath files).isEmpty = false := by
    rw [List.isEmpty_eq_false]
    simp [dirImagePaths, hne]
  unfold processDir
  rw [if_neg (by rw [hemp]; exact Bool.false_ne_true)]
  rw [hembed]
  simp only [hupsert]

/-- C6: during `indexFolder`, a visited directory with no qualifying
image files triggers no Embedding Provider call and no Vector Store
call (the state is untouched); a directory with qualifying files
triggers exactly one batched embedding call and exactly one batched
upsert call with `wait := true`; and `indexFolder` over an empty
directory tree makes no calls at all. -/
theorem index_folder_batch_calls (env : IngestEnv) (st : IngestState)
    (dirpath : FPath) (files : List PyStr) :
    (files.filter hasImageExt = [] →
      processDir env st dirpath files = (st, none)) ∧
    (∀ vectors, files.filter hasImageExt ≠ [] →
      env.embed (dirImagePaths dirpath files) = Except.ok vectors →
      env.upsertErr (mkPoints st.nextId
        (vectors.zip (dirPayloads dirpath files))) = none →
      (processDir env st dirpath files).1.embedCalls
          = st.embedCalls ++ [dirImagePaths dirpath files] ∧
      (processDir env st dirpath files).1.upsertCalls
          = st.upsertCalls ++
            [⟨mkPoints st.nextId (vectors.zip (dirPayloads dirpath files)),
              true⟩]) ∧
    (∀ root : FPath,
      index_folder env st (walk root (DirTree.node [] [])) = (st, none)) := by
  refine ⟨processDir_empty env st dirpath files, ?_, ?_⟩
  · intro vectors hne hembed hupsert
    rw [processDir_ok env st dirpath files vectors hne hembed hupsert]
    exact ⟨rfl, rfl⟩
  · intro root
    have hw : walk root (DirTree.node [] []) = [(root, [])] := by
      simp [walk]
    rw [hw]
    unfold index_folder runDirs
    rw [processDir_empty env st root [] rfl]
    rfl

/-- Witness for C6: the empty root directory causes no calls; the
`root/dogs` directory causes exactly one embedding call and one upsert
call; the empty tree causes no upsert calls. -/
theorem index_folder_batch_calls_witness :
    processDir okEnv initState ["root".data] [] = (initState, none) ∧
    ((processDir okEnv initState ["root".data, "dogs".data]
        ["c.webp".data]).1.embedCalls
      = initState.embedCalls
          ++ [dirImagePaths ["root".data, "dogs".data] ["c.webp".data]] ∧
     (processDir okEnv initState ["root".data, "dogs".data]
        ["c.webp".data]).1.upsertCalls
      = initState.upsertCalls
          ++ [⟨mkPoints initState.nextId
                ([[1]].zip (dirPayloads ["root".data, "dogs".data]
                  ["c.webp".data])), true⟩]) ∧
    index_folder okEnv initState
      (walk ["root".data] (DirTree.node [] [])) = (initState, none) :=
  ⟨(index_folder_batch_calls okEnv initState ["root".data] []).1 rfl,
   (index_folder_batch_calls okEnv initState ["root".data, "dogs".data]
      ["c.webp".data]).2.1 [[1]] (by decide) rfl rfl,
   (index_folder_batch_calls okEnv initState ["root".data] []).2.2
     ["root".data]⟩

theorem runDirs_cons (env : IngestEnv) (st : IngestState) (dp : FPath)
    (fs : List PyStr) (rest : List (FPath × List PyStr)) :
    runDirs env st ((dp, fs) :: rest)
      = (match processDir env st dp fs with
         | (st1, none) => runDirs env st1 rest
         | (st1, some e) => (st1, some e)) := rfl

theorem runDirs_append (env : IngestEnv) (xs ys : List (FPath × List PyStr))
    (st : IngestState) :
    runDirs env st (xs ++ ys)
      = (match runDirs env st xs with
         | (st1, none) => runDirs env st1 ys
         | (st1, some e) => (st1, some e)) := by
  induction xs generalizing st with
  | nil => rfl
  | cons d rest ih =>
    obtain ⟨dp, fs⟩ := d
    rw [List.cons_append, runDirs_cons, runDirs_cons]
    cases hp : processDir env st dp fs with
    | mk st1 oe =>
      cases oe with
      | none => exact ih st1
      | some e => rfl

theorem processDir_fail_store {env : IngestEnv} {st st2 : IngestState}
    {dp : FPath} {fs : List PyStr} {e : PError}
    (h : processDir env st dp fs = (st2, some e)) : st2.store = st.store := by
  simp only [processDir] at h
  split at h
  · simp at h
  · split at h
    · injection h with h1 h2
      rw [← h1]
    · split at h
      · injection h with h1 h2
        rw [← h1]
      · simp at h

/-- C7: if a directory's embedding or upsert step raises during
`indexFolder`, the call returns `IndexingFailure` wrapping the
underlying cause, no directory after the failing one is processed (the
returned state is exactly the state at the failure), and the store
still holds everything upserted by the directories processed before the
failing one — no rollback. -/
theorem index_folder_first_failure (env : IngestEnv)
    (st st1 st2 : IngestState) (dirs1 dirs2 : List (FPath × List PyStr))
    (dp : FPath) (fs : List PyStr) (e : PError)
    (h1 : runDirs env st dirs1 = (st1, none))
    (h2 : processDir env st1 dp fs = (st2, some e)) :
    index_folder env st (dirs1 ++ (dp, fs) :: dirs2)
      = (st2, some (IngestError.indexingFailure e)) ∧
    st2.store = st1.store := by
  have hr : runDirs env st (dirs1 ++ (dp, fs) :: dirs2) = (st2, some e) := by
    rw [runDirs_append env dirs1 ((dp, fs) :: dirs2) st, h1]
    show runDirs env st1 ((dp, fs) :: dirs2) = (st2, some e)
    unfold runDirs
    rw [h2]
  exact ⟨by unfold index_folder; rw [hr], processDir_fail_store h2⟩

/-- Witness for C7: with collaborators that fail on the `root/dogs`
batch, indexing the example tree aborts with a wrapped failure while
the two `cats` points remain indexed. -/
theorem index_folder_first_failure_witness :
    index_folder failDogsEnv initState
      ([(["root".data], []),
        (["root".data, "cats".data],
         ["a.jpg".data, "b.png".data, "notes.txt".data])]
        ++ (["root".data, "dogs".data], ["c.webp".data]) :: [])
      = ((processDir failDogsEnv
            (runDirs failDogsEnv initState
              [(["root".data], []),
               (["root".data, "cats".data],
                ["a.jpg".data, "b.png".data, "notes.txt".data])]).1
            ["root".data, "dogs".data] ["c.webp".data]).1,
         some (IngestError.indexingFailure (PError.fail 7))) ∧
    (processDir failDogsEnv
        (runDirs failDogsEnv initState
          [(["root".data], []),
           (["root".data, "cats".data],
            ["a.jpg".data, "b.png".data, "notes.txt".data])]).1
        ["root".data, "dogs".data] ["c.webp".data]).1.store
      = (runDirs failDogsEnv initState
          [(["root".data], []),
           (["root".data, "cats".data],
            ["a.jpg".data, "b.png".data, "notes.txt".data])]).1.store :=
  index_folder_first_failure failDogsEnv initState _ _ _ []
    ["root".data, "dogs".data] ["c.webp".data] (PError.fail 7)
    (by decide) (by decide)

theorem mkPoints_mem {n : Nat} {vps : List (Vec × Payload)} {pt : Point}
    (h : pt ∈ mkPoints n vps) : ∃ vp ∈ vps, pt.payload = vp.2 := by
  induction vps generalizing n with
  | nil => cases h
  | cons vp rest ih =>
    obtain ⟨v, pl⟩ := vp
    rcases List.mem_cons.mp h with rfl | hm
    · exact ⟨(v, pl), by simp, rfl⟩
    · obtain ⟨vp', hvp', hpl⟩ := ih hm
      exact ⟨vp', List.mem_cons_of_mem _ hvp', hpl⟩

/-- C5: every point a directory's batch upserts is tagged with that
directory's own (immediate) name as category and carries a filename
from the directory's extension-filtered file list; and over the example
tree `root/cats/{a.jpg, b.png, notes.txt}, root/dogs/c.webp`,
`indexFolder` produces exactly 3 indexed points — `a.jpg` and `b.png`
tagged "cats", `c.webp` tagged "dogs" — while `notes.txt` appears in no
embedding call and no stored point. -/
theorem index_folder_immediate_category :
    (∀ (env : IngestEnv) (st : IngestState) (dp : FPath) (fs : List PyStr),
      ∀ call ∈ (processDir env st dp fs).1.upsertCalls,
        call ∈ st.upsertCalls ∨
        ∀ pt ∈ call.points,
          pt.payload.category = some (basename dp) ∧
          pt.payload.filename ∈ fs.filter hasImageExt ∧
          hasImageExt pt.payload.filename = true) ∧
    walk exampleRoot exampleTree = exampleWalkOut ∧
    index_folder okEnv initState exampleWalkOut = (exampleFinalState, none) := by
  refine ⟨?_, ?_, ?_⟩
  · intro env st dp fs call hcall
    by_cases hemp : fs.filter hasImageExt = []
    · rw [processDir_empty env st dp fs hemp] at hcall
      exact Or.inl hcall
    · have hnew : ∀ vectors : List Vec,
          call = (⟨mkPoints st.nextId (vectors.zip (dirPayloads dp fs)),
                   true⟩ : UpsertCall) →
          ∀ pt ∈ call.points,
            pt.payload.category = some (basename dp) ∧
            pt.payload.filename ∈ fs.filter hasImageExt ∧
            hasImageExt pt.payload.filename = true := by
        intro vectors hc pt hpt
        rw [hc] at hpt
        obtain ⟨vp, hvp, hpl⟩ := mkPoints_mem hpt
        have hmem := (List.of_mem_zip hvp).2
        simp only [dirPayloads] at hmem
        obtain ⟨f, hf, hfpl⟩ := List.mem_map.mp hmem
        rw [hpl, ← hfpl]
        refine ⟨rfl, hf, ?_⟩
        exact (List.mem_filter.mp hf).2
      cases hm : env.embed (dirImagePaths dp fs) with
      | error e =>
        rw [processDir_embed_fail env st dp fs e hemp hm] at hcall
        exact Or.inl hcall
      | ok vectors =>
        cases hu : env.upsertErr
            (mkPoints st.nextId (vectors.zip (dirPayloads dp fs))) with
        | some e =>
          rw [processDir_upsert_fail env st dp fs vectors e hemp hm hu] at hcall
          rcases List.mem_append.mp hcall with hold | hnew'
          · exact Or.inl hold
          · simp only [List.mem_singleton] at hnew'
            exact Or.inr (hnew vectors hnew')
        | none =>
          rw [processDir_ok env st dp fs vectors hemp hm hu] at hcall
          rcases List.mem_append.mp hcall with hold | hnew'
          · exact Or.inl hold
          · simp only [List.mem_singleton] at hnew'
            exact Or.inr (hnew vectors hnew')
  · simp [walk, exampleTree, exampleRoot, exampleWalkOut]
  · decide

/-- Witness for C5: instantiating the per-directory guarantee on the
`root/cats` directory shows the point built for `a.jpg` is tagged with
the immediate directory name "cats" and comes from the extension
allow-list. -/
theorem index_folder_immediate_category_witness :
    catsPointA.payload.category
        = some (basename ["root".data, "cats".data]) ∧
    catsPointA.payload.filename
        ∈ ["a.jpg".data, "notes.txt".data].filter hasImageExt ∧
    hasImageExt catsPointA.payload.filename = true := by
  rcases index_folder_immediate_category.1 okEnv initState
      ["root".data, "cats".data] ["a.jpg".data, "notes.txt".data]
      ⟨[catsPointA], true⟩ (by decide) with h | h
  · exact absurd h (by decide)
  · exact h catsPointA (by decide)
